import Mathlib

/-
  Verification of the rust-vpn point-to-point tunnel (src/src/main.rs)
  against its natural-language specification.

  Shallow embedding conventions:
  * bytes are `Nat` (each < 256 where it matters), byte buffers are `List Nat`;
  * a TCP stream is modelled by the byte sequence written to it so far
    (for sending) or the byte sequence still available to read (for receiving);
  * fallible operations return an error component mirroring the error
    taxonomy of the code (`std::io::Error` kinds).
-/

namespace RustVpn

/-- Error taxonomy of the framing codec, mirroring the `std::io::Error`
values produced in `main.rs`: "Packet too large" (InvalidData),
"Packet too large for buffer" (InvalidData), and the read failure
(UnexpectedEof / connection closed) surfaced by `read_exact`. -/
inductive VpnErr
  | packetTooLarge
  | packetTooLargeForBuffer
  | connectionClosed
deriving DecidableEq, Repr

/-- Big-endian bytes of `(n as u16).to_be_bytes()` in
`send_vpn_packet`: high byte then low byte of `n mod 2^16`. -/
def be2 (n : Nat) : List Nat := [n / 256 % 256, n % 256]

/-- Embedding of `send_vpn_packet` (main.rs lines 122-141).
`stream` is the sequence of bytes written to the TCP stream so far; the
result is the error outcome paired with the stream's written bytes after
the call.  The length check happens before any write, exactly as in the
code: on `packet.len() > 0xFFFF` the function returns the InvalidData
error "Packet too large" having written nothing; otherwise it writes the
2-byte big-endian length followed by the packet bytes. -/
def send_vpn_packet (stream packet : List Nat) : Option VpnErr × List Nat :=
  if packet.length > 0xFFFF then
    (some VpnErr.packetTooLarge, stream)
  else
    (none, stream ++ be2 packet.length ++ packet)

/-- Result of `recv_vpn_packet`: the error outcome, the caller's buffer
contents after the call, and the returned length (0 on error). -/
structure RecvOut where
  err : Option VpnErr
  buf : List Nat
  len : Nat
deriving DecidableEq, Repr

/-- Embedding of `recv_vpn_packet` (main.rs lines 144-166).
`input` is the byte sequence still available on the stream before the
peer's close; `buf` is the caller's packet buffer.  The code reads
exactly 2 length bytes into a local `len_buf` (failure leaves `buf`
untouched), decodes the big-endian length, errors with "Packet too
large for buffer" if it exceeds the buffer capacity, then
`read_exact(&mut buf[..length])`: a short read copies the available
bytes into the front of the slice and fails; a full read returns the
length. -/
def recv_vpn_packet (input buf : List Nat) : RecvOut :=
  match input with
  | b0 :: b1 :: rest =>
    let length := 256 * b0 + b1
    if length > buf.length then
      ⟨some VpnErr.packetTooLargeForBuffer, buf, 0⟩
    else if rest.length < length then
      ⟨some VpnErr.connectionClosed, rest ++ buf.drop rest.length, 0⟩
    else
      ⟨none, rest.take length ++ buf.drop length, length⟩
  | _ => ⟨some VpnErr.connectionClosed, buf, 0⟩

/-- Forwarding-buffer size: both flows in `server_mode` and `client_mode`
read into `let mut buf = [0u8; 1500]`. -/
def FWD_BUF : Nat := 1500

/-- Modelled from the spec: `read_packet` delivers the next whole IP
packet directed at the interface (spec section 3: each read transfers
exactly one IP packet, no partial-packet semantics).  The device/OS read
itself is outside src; the flows call it with a fixed 1500-byte buffer
(`[0u8; 1500]`), so only a packet that fits the buffer can be
transferred whole — a larger packet cannot arrive intact. -/
def deviceReadIntoFwdBuf (packet : List Nat) : Option (List Nat) :=
  if packet.length ≤ FWD_BUF then some packet else none

/-- One packet through the forwarding engine (main.rs lines 193-242 /
273-322): the device→socket thread reads the injected packet into its
1500-byte buffer and, if non-empty, frames it with `send_vpn_packet`
onto an (initially empty) outbound stream; the peer's socket→device
loop receives the framed bytes with `recv_vpn_packet` into its own
1500-byte buffer and, on success with non-zero length, writes
`&buf[..n]` to its device.  The result is the packet delivered to the
peer device, or `none` when some stage errors/breaks instead. -/
def forwardOne (packet : List Nat) : Option (List Nat) :=
  match deviceReadIntoFwdBuf packet with
  | none => none
  | some q =>
    if q.isEmpty then none
    else
      match send_vpn_packet [] q with
      | (some _, _) => none
      | (none, wire) =>
        let r := recv_vpn_packet wire (List.replicate FWD_BUF 0)
        match r.err with
        | some _ => none
        | none => if r.len = 0 then none else some (r.buf.take r.len)

/-- Rust `char::is_whitespace` restricted to the ASCII whitespace
characters, which is all `str::trim_end` can remove from the ASCII
handshake lines exchanged here. -/
def isWsChar (c : Char) : Bool :=
  c = ' ' || c = '\t' || c = '\n' || c = '\r'

/-- Embedding of `str::trim_end` on a list of characters: remove the
trailing run of whitespace characters. -/
def trimEndChars (l : List Char) : List Char :=
  (l.reverse.dropWhile isWsChar).reverse

/-- The literal acknowledgement line `"OK\n"` the server writes in
`server_mode` (main.rs line 187). -/
def okLine : List Char := ['O', 'K', '\n']

/-- Embedding of the server side of the handshake (main.rs lines
181-188): read one line, `trim_end` it, treat the result as the
client's declared address, and reply with the literal `"OK\n"`.
Returns (declared address, reply line written to the stream). -/
def serverHandshake (line : List Char) : List Char × List Char :=
  (trimEndChars line, okLine)

/-- What the client does after its handshake read. -/
inductive ClientStep
  | proceedForwarding
  | failHandshake
deriving DecidableEq, Repr

/-- Embedding of the client side of the handshake after sending its own
address line (main.rs lines 258-262): `read_line` the server's reply;
any successfully read line is only logged — no value check — and the
client proceeds to forwarding; only the read failing aborts. -/
def clientAfterReply (reply : Except Unit (List Char)) : ClientStep :=
  match reply with
  | Except.ok _ => ClientStep.proceedForwarding
  | Except.error _ => ClientStep.failHandshake

/-- A TUN device as seen through its handle: the sequence of whole
packets injected into it so far. -/
structure TunDev where
  packets : List (List Nat)
deriving DecidableEq, Repr

/-- Modelled from the spec: a `write` on the TUN file handle transfers
exactly one whole IP packet as a single atomic packet write and reports
the full byte count (spec section 3: each read/write transfers exactly
one IP packet, no partial-packet semantics).  The syscall itself is
outside src. -/
def tunFileWrite (dev : TunDev) (buf : List Nat) : TunDev × Nat :=
  (⟨dev.packets ++ [buf]⟩, buf.length)

/-- Embedding of `TunInterface::write_packet` (main.rs lines 92-96): a
debug hexdump (no effect on the device) followed by a single
`self.file.write(buf)` passing the whole buffer. -/
def write_packet (dev : TunDev) (buf : List Nat) : TunDev × Nat :=
  tunFileWrite dev buf

/-- One device-read event observed by the device→socket loop, together
with the outcome the TCP stream would give the send for that packet:
`rerr` is a device read error; `rok p sendFails` is a successful read of
packet `p` where `sendFails` tells whether `send_vpn_packet` on the
outbound stream would fail (an I/O error on the socket). -/
inductive LoopEv
  | rerr
  | rok (p : List Nat) (sendFails : Bool)
deriving DecidableEq, Repr

/-- Why a forwarding flow's loop broke. -/
inductive FlowEnd
  | readError
  | sendError
deriving DecidableEq, Repr

/-- Embedding of the device→socket thread body (main.rs lines 196-216)
run over a finite list of device-read events: on a read error the loop
breaks; on a 0-byte read it only logs and retries; on a non-empty
packet it sends one frame, breaking if the send fails.  Returns the
frames successfully handed to `send_vpn_packet` and how (whether) the
loop broke (`none` = all events consumed, loop still running). -/
def devToSockRun : List LoopEv → List (List Nat) × Option FlowEnd
  | [] => ([], none)
  | LoopEv.rerr :: _ => ([], some FlowEnd.readError)
  | LoopEv.rok p sf :: rest =>
    if p.isEmpty then devToSockRun rest
    else if sf then ([], some FlowEnd.sendError)
    else
      let r := devToSockRun rest
      (p :: r.1, r.2)

/-- Behaviour of the shared device as seen by the device→socket thread
at each of its successive read attempts: the read can block forever
(`blocked` — no further device traffic), fail (`rerr`), or return a
packet whose subsequent send succeeds or fails (`rok`). -/
inductive DevReadEv
  | blocked
  | rerr
  | rok (p : List Nat) (sendFails : Bool)

/-- Drop the first event of an event stream. -/
def shiftEv (ev : Nat → DevReadEv) : Nat → DevReadEv :=
  fun i => ev (i + 1)

/-- Step-indexed run of the device→socket thread (same loop body as
`devToSockRun`) over an infinite event stream: `some e` when the loop
has broken with cause `e` within `n` loop steps, `none` when after `n`
steps it is still looping or sitting in a blocked device read. -/
def threadEndWithin : (Nat → DevReadEv) → Nat → Option FlowEnd
  | _, 0 => none
  | ev, n + 1 =>
    match ev 0 with
    | DevReadEv.blocked => none
    | DevReadEv.rerr => some FlowEnd.readError
    | DevReadEv.rok p sf =>
      if p.isEmpty then threadEndWithin (shiftEv ev) n
      else if sf then some FlowEnd.sendError
      else threadEndWithin (shiftEv ev) n

/-- Embedding of the session shutdown in `server_mode`/`client_mode`
(main.rs lines 244-247 / 324-327): after the primary socket→device loop
ends, the code runs `tun_tx_handle.join().ok()` — it blocks until the
device→socket thread finishes, discards the thread's outcome, and then
returns `Ok(())`.  `some r` means the process has exited within `n`
steps with result `r`; `none` means it is still blocked in `join`. -/
def sessionExitWithin (ev : Nat → DevReadEv) (n : Nat) :
    Option (Except VpnErr Unit) :=
  (threadEndWithin ev n).map (fun _ => Except.ok ())

/-- The device→socket thread blocked on a device read with no further
device traffic: every read attempt blocks. -/
def blockedDev : Nat → DevReadEv := fun _ => DevReadEv.blocked

/-- The process never exits: at no step count has the `join` returned. -/
def neverExits (ev : Nat → DevReadEv) : Prop :=
  ∀ n, sessionExitWithin ev n = none

/-- The atomic operations one forwarding-loop iteration is made of, for
the shared-device access discipline: taking/dropping the `Mutex<TunInterface>`
lock, a device packet operation under it, and the socket operations. -/
inductive Op
  | lockAcq
  | lockRel
  | devRead
  | devWrite
  | sockSend
  | sockRecv
deriving DecidableEq, Repr

/-- The cyclic program of the device→socket thread, one loop iteration
(main.rs lines 196-216): `tun_rx.lock()` inside the inner block,
`read_packet` under the lock, the guard dropped at the end of that
block, then `send_vpn_packet` on the socket with the lock released. -/
def devToSockProg : Fin 4 → Op :=
  ![Op.lockAcq, Op.devRead, Op.lockRel, Op.sockSend]

/-- The cyclic program of the socket→device loop, one loop iteration
(main.rs lines 223-242): `recv_vpn_packet` on the socket first, then
`tun.lock()`, `write_packet` under the lock, and the guard dropped at
the end of the iteration before the next receive. -/
def sockToDevProg : Fin 4 → Op :=
  ![Op.sockRecv, Op.lockAcq, Op.devWrite, Op.lockRel]

/-- The program of flow `t` (`false` = device→socket thread, `true` =
socket→device loop). -/
def progOf (t : Bool) : Fin 4 → Op :=
  if t then sockToDevProg else devToSockProg

/-- Interleaving state of the two flows: program counter of each flow
into its cyclic 4-operation program, and which flow currently holds the
device mutex (`none` = free). -/
abbrev VState : Type := Fin 4 × Fin 4 × Option Bool

/-- Program counter of flow `t`. -/
def pcOf (t : Bool) (s : VState) : Fin 4 :=
  if t then s.2.1 else s.1

/-- One scheduler step: flow `t` attempts its current operation.
`lockAcq` succeeds (advancing the counter and taking the mutex) only
when the mutex is free, otherwise the flow stays blocked and the state
is unchanged; `lockRel` releases the mutex; every other operation is a
plain step.  This is the standard interleaving semantics of two threads
sharing one `Mutex`. -/
def vstep (s : VState) (t : Bool) : VState :=
  let pc := pcOf t s
  let upd : Fin 4 → Option Bool → VState :=
    fun p o => if t then (s.1, p, o) else (p, s.2.1, o)
  match progOf t pc with
  | Op.lockAcq => if s.2.2 = none then upd (pc + 1) (some t) else s
  | Op.lockRel => upd (pc + 1) none
  | _ => upd (pc + 1) s.2.2

/-- Both flows start at the top of their loop with the mutex free. -/
def vinit : VState := (0, 0, none)

/-- Run the interleaving under a schedule (the list of flows picked to
step, in order). -/
def vrun (sched : List Bool) : VState :=
  sched.foldl vstep vinit

/-- Flow `t` is at (poised to perform, and performing when scheduled) a
device packet operation. -/
def atDevOp (t : Bool) (s : VState) : Bool :=
  match progOf t (pcOf t s) with
  | Op.devRead => true
  | Op.devWrite => true
  | _ => false

/-- Flow `t` is at a socket operation. -/
def atSockOp (t : Bool) (s : VState) : Bool :=
  match progOf t (pcOf t s) with
  | Op.sockSend => true
  | Op.sockRecv => true
  | _ => false

/-- Flow `t` currently holds the device mutex. -/
def holdsLock (t : Bool) (s : VState) : Bool :=
  s.2.2 = some t

/-- The mutex bookkeeping invariant: the mutex is held by exactly the
flow whose program counter is inside its lock-to-unlock region
(positions 1-2 of the device→socket iteration, 2-3 of the
socket→device iteration). -/
def lockInv (s : VState) : Bool :=
  match s.2.2 with
  | none => (s.1 = 0 || s.1 = 3) && (s.2.1 = 0 || s.2.1 = 1)
  | some false => (s.1 = 1 || s.1 = 2) && (s.2.1 = 0 || s.2.1 = 1)
  | some true => (s.1 = 0 || s.1 = 3) && (s.2.1 = 2 || s.2.1 = 3)

/-- IFNAMSIZ on Linux: the fixed size of the `ifr_name` field. -/
def IFNAMSIZ : Nat := 16

/-- Indexed assignment `arr[i] = v` of the Rust name-copy loop: `none`
models the out-of-bounds index panic. -/
def setIdx (arr : List Nat) (i : Nat) (v : Nat) : Option (List Nat) :=
  if i < arr.length then some (arr.set i v) else none

/-- The loop `for (i, c) in name.bytes().enumerate() { ifr_name[i] = c }`
of `TunInterface::new` (main.rs lines 34-36), writing the name's bytes
at consecutive indices; `none` models the panic on an out-of-bounds
index. -/
def copyNameLoop : List Nat → Nat → List Nat → Option (List Nat)
  | [], _, arr => some arr
  | c :: cs, i, arr =>
    match setIdx arr i c with
    | none => none
    | some a2 => copyNameLoop cs (i + 1) a2

/-- The `ifr_name` field built by `TunInterface::new` (main.rs lines
33-36): a zeroed `[0u8; IFNAMSIZ]` array filled by the copy loop;
`none` models the panic. -/
def ifrNameOf (name : List Nat) : Option (List Nat) :=
  copyNameLoop name 0 (List.replicate IFNAMSIZ 0)

theorem be2_decode {n : Nat} (h : n ≤ 65535) :
    256 * (n / 256 % 256) + n % 256 = n := by
  omega

theorem recv_of_send (P buf : List Nat)
    (hlen : P.length ≤ 65535) (hcap : P.length ≤ buf.length) :
    recv_vpn_packet (send_vpn_packet [] P).2 buf =
      ⟨none, P ++ buf.drop P.length, P.length⟩ := by
  have hsend : (send_vpn_packet [] P).2 =
      P.length / 256 % 256 :: P.length % 256 :: P := by
    simp only [send_vpn_packet]
    rw [if_neg (by omega)]
    simp [be2]
  rw [hsend]
  simp only [recv_vpn_packet, be2_decode hlen]
  rw [if_neg (by omega), if_neg (by omega)]
  simp

/-- C1: for every byte sequence `P` with `len(P) ≤ 65535`, framing `P`
with `send_vpn_packet` (2-byte big-endian length then the payload) and
decoding the resulting bytes with `recv_vpn_packet` into a buffer of
capacity at least `len(P)` succeeds and returns exactly `P`. -/
theorem framing_roundtrip (P buf : List Nat)
    (hlen : P.length ≤ 65535) (hcap : P.length ≤ buf.length) :
    (recv_vpn_packet (send_vpn_packet [] P).2 buf).err = none ∧
    (recv_vpn_packet (send_vpn_packet [] P).2 buf).len = P.length ∧
    (recv_vpn_packet (send_vpn_packet [] P).2 buf).buf.take
      (recv_vpn_packet (send_vpn_packet [] P).2 buf).len = P := by
  rw [recv_of_send P buf hlen hcap]
  refine ⟨rfl, rfl, ?_⟩
  rw [List.take_append_eq_append_take]
  simp

/-- Witness for C1 at the concrete packet `[1, 2, 3]` and a buffer of
capacity 4. -/
theorem framing_roundtrip_witness :
    (recv_vpn_packet (send_vpn_packet [] [1, 2, 3]).2 [9, 9, 9, 9]).err = none ∧
    (recv_vpn_packet (send_vpn_packet [] [1, 2, 3]).2 [9, 9, 9, 9]).len =
      ([1, 2, 3] : List Nat).length ∧
    (recv_vpn_packet (send_vpn_packet [] [1, 2, 3]).2 [9, 9, 9, 9]).buf.take
      (recv_vpn_packet (send_vpn_packet [] [1, 2, 3]).2 [9, 9, 9, 9]).len =
      [1, 2, 3] :=
  framing_roundtrip [1, 2, 3] [9, 9, 9, 9] (by decide) (by decide)

/-- C3: `send_vpn_packet` on a packet longer than 65535 bytes fails
with the PacketTooLarge error and writes nothing: the stream's written
byte sequence is exactly what it was before the call. -/
theorem send_too_large_writes_nothing (stream packet : List Nat)
    (h : packet.length > 65535) :
    send_vpn_packet stream packet = (some VpnErr.packetTooLarge, stream) := by
  simp only [send_vpn_packet]
  rw [if_pos (by omega)]

/-- Witness for C3 at a concrete 65536-byte packet on an empty stream. -/
theorem send_too_large_witness :
    send_vpn_packet [] (List.replicate 65536 0) =
      (some VpnErr.packetTooLarge, []) :=
  send_too_large_writes_nothing [] (List.replicate 65536 0)
    (by simp only [List.length_replicate]; omega)

/-- C4: `recv_vpn_packet` on a stream that closes right after the
2-byte length header, with a nonzero declared length that fits the
buffer, fails with the ConnectionClosed/IOError-class error and leaves
every byte of the caller's buffer exactly as it was before the call. -/
theorem recv_header_only_buffer_untouched (L : Nat) (buf : List Nat)
    (h0 : 0 < L) (h1 : L ≤ 65535) (hcap : L ≤ buf.length) :
    recv_vpn_packet (be2 L) buf = ⟨some VpnErr.connectionClosed, buf, 0⟩ := by
  simp only [be2, recv_vpn_packet, be2_decode h1]
  rw [if_neg (by omega), if_pos (by simpa using h0)]
  simp

/-- Witness for C4 at declared length 5 against a 5-byte buffer. -/
theorem recv_header_only_witness :
    recv_vpn_packet (be2 5) [9, 9, 9, 9, 9] =
      ⟨some VpnErr.connectionClosed, [9, 9, 9, 9, 9], 0⟩ :=
  recv_header_only_buffer_untouched 5 [9, 9, 9, 9, 9]
    (by decide) (by decide) (by decide)

/-- C2 counterexample: a 1501-byte packet — within the claimed
1..=65535 range — is not delivered: the forwarding pipeline drops it,
and independently the socket→device side's `recv_vpn_packet` on a
well-formed 1501-byte frame fails with PacketTooLargeForBuffer against
the loop's 1500-byte buffer. -/
theorem forwarding_fidelity_counterexample :
    ¬ (forwardOne (List.replicate 1501 0) = some (List.replicate 1501 0)) ∧
    (recv_vpn_packet (be2 1501 ++ List.replicate 1501 0)
        (List.replicate FWD_BUF 0)).err = some VpnErr.packetTooLargeForBuffer := by
  constructor
  · have hread : deviceReadIntoFwdBuf (List.replicate 1501 0) = none := by
      unfold deviceReadIntoFwdBuf FWD_BUF
      rw [if_neg (by simp only [List.length_replicate]; omega)]
    intro h
    unfold forwardOne at h
    rw [hread] at h
    exact Option.noConfusion h
  · have hbe : be2 1501 = [5, 221] := by norm_num [be2]
    rw [hbe]
    simp only [List.cons_append, List.nil_append, recv_vpn_packet]
    rw [if_pos (by simp only [List.length_replicate]; unfold FWD_BUF; omega)]

/-- C2 amended: forwarding fidelity holds for packets of 1 to 1500
bytes (the two flows' buffers are `[0u8; 1500]`): such a packet
injected at one device is read whole, framed, received whole into the
peer's 1500-byte buffer, and written byte-identical to the peer's
device. -/
theorem forwarding_fidelity_upto_1500 (P : List Nat)
    (h1 : 1 ≤ P.length) (h2 : P.length ≤ 1500) :
    forwardOne P = some P := by
  have hread : deviceReadIntoFwdBuf P = some P := by
    unfold deviceReadIntoFwdBuf FWD_BUF
    rw [if_pos (by omega)]
  have hne : P.isEmpty = false := by
    cases P with
    | nil => simp at h1
    | cons a l => rfl
  have hsend : send_vpn_packet [] P =
      (none, P.length / 256 % 256 :: P.length % 256 :: P) := by
    simp only [send_vpn_packet]
    rw [if_neg (by omega)]
    simp [be2]
  have hrecv : recv_vpn_packet
      (P.length / 256 % 256 :: P.length % 256 :: P)
      (List.replicate FWD_BUF 0) =
      ⟨none, P ++ (List.replicate FWD_BUF 0).drop P.length, P.length⟩ := by
    have hr := recv_of_send P (List.replicate FWD_BUF 0) (by omega)
      (by simp only [List.length_replicate]; unfold FWD_BUF; omega)
    rw [hsend] at hr
    exact hr
  have hP0 : P.length ≠ 0 := by omega
  simp [forwardOne, hread, hne, hsend, hrecv, hP0, List.take_left]

/-- Witness for the amended C2 at the concrete one-byte packet `[42]`. -/
theorem forwarding_fidelity_witness : forwardOne [42] = some [42] :=
  forwarding_fidelity_upto_1500 [42] (by decide) (by decide)

theorem trimEndChars_append_newline (l : List Char) :
    trimEndChars (l ++ ['\n']) = trimEndChars l := by
  simp [trimEndChars, isWsChar, List.dropWhile]

/-- C5: the server handshake reads one newline-terminated line, trims
the trailing newline, treats the rest as the client's declared address,
and replies with the literal line `"OK\n"`; the client accepts any
successfully-read reply line — no value check — and proceeds to
forwarding. -/
theorem handshake_protocol (addr : List Char) (h : trimEndChars addr = addr) :
    serverHandshake (addr ++ ['\n']) = (addr, okLine) ∧
    (∀ reply : List Char,
      clientAfterReply (Except.ok reply) = ClientStep.proceedForwarding) := by
  constructor
  · unfold serverHandshake
    rw [trimEndChars_append_newline, h]
  · intro reply
    rfl

/-- Witness for C5 at the spec's example line `"10.0.0.5\n"` and a
concrete reply line. -/
theorem handshake_protocol_witness :
    serverHandshake (['1', '0', '.', '0', '.', '0', '.', '5'] ++ ['\n']) =
      (['1', '0', '.', '0', '.', '0', '.', '5'], okLine) ∧
    clientAfterReply (Except.ok ['O', 'K', '\n']) =
      ClientStep.proceedForwarding :=
  ⟨(handshake_protocol ['1', '0', '.', '0', '.', '0', '.', '5'] (by decide)).1,
   (handshake_protocol ['1', '0', '.', '0', '.', '0', '.', '5'] (by decide)).2
     ['O', 'K', '\n']⟩

/-- C6: `write_packet` injects the full packet into the device as a
single atomic packet write: on success the device receives exactly one
new packet equal to the whole buffer, and the reported byte count is
the full packet length — never a partial prefix. -/
theorem write_packet_atomic (dev : TunDev) (p : List Nat) :
    (write_packet dev p).1.packets = dev.packets ++ [p] ∧
    (write_packet dev p).2 = p.length :=
  ⟨rfl, rfl⟩

/-- C7: in the device→socket loop, a 0-byte read is transient: no
frame is sent for it and the loop goes on exactly as it would without
that event; and the loop breaks only when a device read error occurs or
a non-empty packet's send fails. -/
theorem devToSock_zero_retry_break_only_on_error :
    (∀ (sf : Bool) (rest : List LoopEv),
      devToSockRun (LoopEv.rok [] sf :: rest) = devToSockRun rest) ∧
    (∀ evs : List LoopEv, (devToSockRun evs).2 ≠ none →
      LoopEv.rerr ∈ evs ∨ ∃ p, p ≠ [] ∧ LoopEv.rok p true ∈ evs) := by
  constructor
  · intro sf rest
    rfl
  · intro evs
    induction evs with
    | nil => intro h; simp [devToSockRun] at h
    | cons e rest ih =>
      intro h
      cases e with
      | rerr => exact Or.inl (List.mem_cons_self _ _)
      | rok p sf =>
        by_cases hp : p.isEmpty
        · rw [show devToSockRun (LoopEv.rok p sf :: rest) = devToSockRun rest from
            by simp [devToSockRun, hp]] at h
          rcases ih h with h1 | ⟨q, hq1, hq2⟩
          · exact Or.inl (List.mem_cons_of_mem _ h1)
          · exact Or.inr ⟨q, hq1, List.mem_cons_of_mem _ hq2⟩
        · cases sf with
          | true =>
            refine Or.inr ⟨p, ?_, List.mem_cons_self _ _⟩
            intro hnil
            exact hp (by simp [hnil])
          | false =>
            have hstep : (devToSockRun (LoopEv.rok p false :: rest)).2 =
                (devToSockRun rest).2 := by
              simp [devToSockRun, hp]
            rw [hstep] at h
            rcases ih h with h1 | ⟨q, hq1, hq2⟩
            · exact Or.inl (List.mem_cons_of_mem _ h1)
            · exact Or.inr ⟨q, hq1, List.mem_cons_of_mem _ hq2⟩

/-- Witness for C7: the zero-read retry at a concrete event list, and
the break-only-on-error part at the singleton read-error list. -/
theorem devToSock_witness :
    devToSockRun [LoopEv.rok [] true, LoopEv.rerr] = devToSockRun [LoopEv.rerr] ∧
    (LoopEv.rerr ∈ [LoopEv.rerr] ∨
      ∃ p, p ≠ [] ∧ LoopEv.rok p true ∈ [LoopEv.rerr]) :=
  ⟨devToSock_zero_retry_break_only_on_error.1 true [LoopEv.rerr],
   devToSock_zero_retry_break_only_on_error.2 [LoopEv.rerr] (by decide)⟩

/-- C8 counterexample: with the device→socket thread blocked on a
device read and no further device traffic, the unconditional
`tun_tx_handle.join()` never returns — the process does not exit, at
any number of steps, contradicting the claimed bounded wait and clean
exit. -/
theorem join_blocked_never_exits : neverExits blockedDev := by
  intro n
  cases n with
  | zero => rfl
  | succ m => rfl

/-- C8 amended: when the primary socket→device flow terminates, the
session joins the device→socket thread with `join().ok()`: whenever the
thread's loop has broken the process exits and its result is `Ok(())`
regardless of the thread's outcome, but the wait is unbounded — with
the thread blocked on a device read and no further traffic, the
process never exits. -/
theorem session_join_unbounded :
    (∀ (ev : Nat → DevReadEv) (n : Nat) (e : FlowEnd),
      threadEndWithin ev n = some e →
      sessionExitWithin ev n = some (Except.ok ())) ∧
    (∀ n : Nat, sessionExitWithin blockedDev n = none) := by
  constructor
  · intro ev n e h
    simp [sessionExitWithin, h]
  · intro n
    cases n with
    | zero => rfl
    | succ m => rfl

/-- Witness for the amended C8 at a thread whose first device read
errors: the loop breaks at step 1 and the session exits `Ok`. -/
theorem session_join_witness :
    threadEndWithin (fun _ => DevReadEv.rerr) 1 = some FlowEnd.readError ∧
    sessionExitWithin (fun _ => DevReadEv.rerr) 1 = some (Except.ok ()) :=
  ⟨rfl, session_join_unbounded.1 (fun _ => DevReadEv.rerr) 1 FlowEnd.readError rfl⟩

theorem lockInv_vstep :
    ∀ (s : VState) (t : Bool), lockInv s = true → lockInv (vstep s t) = true := by
  decide

theorem lockInv_vrun (sched : List Bool) : lockInv (vrun sched) = true := by
  suffices h : ∀ (l : List Bool) (s : VState),
      lockInv s = true → lockInv (l.foldl vstep s) = true by
    exact h sched vinit (by decide)
  intro l
  induction l with
  | nil => intro s hs; exact hs
  | cons t rest ih => intro s hs; exact ih (vstep s t) (lockInv_vstep s t hs)

/-- C9: in every execution (every schedule of the two flows under the
mutex), the two flows are never at a device operation at the same
instant; a flow performs a device operation only while holding the
device lock; and the lock is never held across a socket send or
receive — the mutual-exclusion scope is exactly the one packet
operation. -/
theorem device_lock_discipline (sched : List Bool) :
    (atDevOp false (vrun sched) && atDevOp true (vrun sched)) = false ∧
    (∀ t, (atDevOp t (vrun sched) && ! holdsLock t (vrun sched)) = false) ∧
    (∀ t, (atSockOp t (vrun sched) && holdsLock t (vrun sched)) = false) := by
  have key : ∀ s : VState, lockInv s = true →
      (atDevOp false s && atDevOp true s) = false ∧
      (∀ t, (atDevOp t s && ! holdsLock t s) = false) ∧
      (∀ t, (atSockOp t s && holdsLock t s) = false) := by decide
  exact key (vrun sched) (lockInv_vrun sched)

theorem copyNameLoop_fits :
    ∀ (name : List Nat) (i : Nat) (arr : List Nat),
      i + name.length ≤ arr.length →
      copyNameLoop name i arr =
        some (arr.take i ++ name ++ arr.drop (i + name.length)) := by
  intro name
  induction name with
  | nil =>
    intro i arr h
    simp [copyNameLoop, List.take_append_drop]
  | cons c cs ih =>
    intro i arr h
    have hlen : (c :: cs).length = cs.length + 1 := rfl
    have hi : i < arr.length := by rw [hlen] at h; omega
    have hset : setIdx arr i c = some (arr.set i c) := by
      unfold setIdx
      rw [if_pos hi]
    unfold copyNameLoop
    rw [hset]
    show copyNameLoop cs (i + 1) (arr.set i c) = _
    rw [ih (i + 1) (arr.set i c) (by rw [List.length_set]; rw [hlen] at h; omega)]
    congr 1
    rw [List.set_eq_take_cons_drop c hi]
    have hta : (arr.take i).length = i := by
      rw [List.length_take]
      omega
    rw [List.take_append_eq_append_take, List.drop_append_eq_append_drop, hta]
    rw [List.take_of_length_le (by omega : (arr.take i).length ≤ i + 1)]
    rw [List.drop_eq_nil_of_le (by omega : (arr.take i).length ≤ i + 1 + cs.length)]
    have h1 : i + 1 - i = 1 := by omega
    have h2 : i + 1 + cs.length - i = cs.length + 1 := by omega
    rw [h1, h2]
    rw [List.take_cons (by omega), List.drop_succ_cons]
    rw [List.drop_drop]
    have h3 : i + 1 + cs.length = i + (c :: cs).length := by rw [hlen]; omega
    rw [h3]
    simp

theorem copyNameLoop_oob :
    ∀ (cs : List Nat) (c : Nat) (i : Nat) (arr : List Nat),
      arr.length < i + cs.length + 1 →
      copyNameLoop (c :: cs) i arr = none := by
  intro cs
  induction cs with
  | nil =>
    intro c i arr h
    have hge : ¬ i < arr.length := by simp at h; omega
    unfold copyNameLoop setIdx
    rw [if_neg hge]
  | cons d ds ih =>
    intro c i arr h
    by_cases hi : i < arr.length
    · have hset : setIdx arr i c = some (arr.set i c) := by
        unfold setIdx
        rw [if_pos hi]
      unfold copyNameLoop
      rw [hset]
      exact ih d (i + 1) (arr.set i c)
        (by rw [List.length_set]; simp at h ⊢; omega)
    · have hset : setIdx arr i c = none := by
        unfold setIdx
        rw [if_neg hi]
      unfold copyNameLoop
      rw [hset]

/-- C10: `TunInterface::new`'s name-copy loop panics with an
out-of-bounds index for an interface name longer than IFNAMSIZ (16)
bytes — it does not return a DeviceUnavailable-style error — while for
a name of at most 16 bytes the copy is total and the remaining bytes of
the fixed-size `ifr_name` field stay zero (null padding). -/
theorem tun_name_copy (name : List Nat) :
    (name.length > IFNAMSIZ → ifrNameOf name = none) ∧
    (name.length ≤ IFNAMSIZ →
      ifrNameOf name =
        some (name ++ List.replicate (IFNAMSIZ - name.length) 0)) := by
  constructor
  · intro h
    cases name with
    | nil => simp [IFNAMSIZ] at h
    | cons c cs =>
      unfold ifrNameOf
      apply copyNameLoop_oob
      simp only [List.length_replicate]
      simp only [IFNAMSIZ] at h ⊢
      simp at h
      omega
  · intro h
    unfold ifrNameOf
    rw [copyNameLoop_fits name 0 (List.replicate IFNAMSIZ 0)
      (by simp only [List.length_replicate]; omega)]
    simp [List.drop_replicate]

/-- Witness for C10: a 17-byte name panics; the 4-byte name "tun0"
(bytes [116, 117, 110, 48]) is copied with 12 zero bytes of padding. -/
theorem tun_name_copy_witness :
    ifrNameOf (List.replicate 17 65) = none ∧
    ifrNameOf [116, 117, 110, 48] =
      some ([116, 117, 110, 48] ++ List.replicate 12 0) :=
  ⟨(tun_name_copy (List.replicate 17 65)).1
      (by simp only [List.length_replicate]; decide),
   (tun_name_copy [116, 117, 110, 48]).2 (by decide)⟩

end RustVpn


